import Mathlib

/-!
Shallow embedding of the AEM asset-generator repository: the upload
client (aem_uploader.py), the customer-structure replicator
(customer_structure.py) and the image-processor upload hook
(image_processor.py).  Remote HTTP interaction is modelled by an
environment that answers the n-th outbound call with either a status
code or a transport exception; every client function returns, besides
its result, the next call counter and the trace of calls it issued
together with the result each call received.  The worker pool of
customer_structure.py is modelled as a small-step transition system
over pool states, quantified over all interleavings.
-/

namespace AemAssetGen

/-- Outbound remote calls issued by the client, keyed by the remote
path or signed URI they target (the constant host name, auth headers
and request bodies carry no information relevant to control flow and
are omitted). -/
inductive Call where
  | getCheck (path : String)
  | postCreate (path : String)
  | postInitiate (dest : String) (fileName : String)
  | putBinary (uri : String)
  | postComplete (uri : String)
deriving DecidableEq

/-- Result of one outbound call: an HTTP status code, or a transport
exception raised by the requests library. -/
inductive CallResult where
  | status (code : Nat)
  | exn
deriving DecidableEq

/-- Trace of issued calls, each paired with the result it received. -/
abbrev Trace := List (Call × CallResult)

/-- Parsed body of a successful initiateUpload response:
files[0].uploadURIs, files[0].uploadToken and completeURI. -/
structure UploadInfo where
  uploadURIs : List String
  uploadToken : String
  completeURI : String
deriving DecidableEq

/-- Remote environment: resp answers the k-th outbound call, info is
the JSON body handed back when the k-th call is a successful
initiateUpload. -/
structure Env where
  resp : Nat → CallResult
  info : Nat → UploadInfo

/-- Mutable configuration of AEMUploader (aem_uploader.py, __init__):
the upload-enabled flag, the destination root and the
date-partitioning flag.  Host and bearer token are constants with no
influence on control flow and are omitted. -/
structure Uploader where
  aem_enabled : Bool
  aem_destination : String
  put_into_date_folder : Bool
deriving DecidableEq

/-- Capture date, reduced to the strftime fields the code reads. -/
structure Date where
  year : String
  month : String
deriving DecidableEq

/-- Split helper over character lists: acc holds the current field
reversed. -/
def splitCharsAux (sep : Char) : List Char → List Char → List String
  | [], acc => [String.mk acc.reverse]
  | c :: rest, acc =>
    if c = sep then String.mk acc.reverse :: splitCharsAux sep rest []
    else splitCharsAux sep rest (c :: acc)

/-- Python str.split(sep) for a one-character separator (also the
behaviour of the path.split('/') calls in the source). -/
def pySplit (s : String) (sep : Char) : List String :=
  splitCharsAux sep s.toList []

/-- Python str.strip(): drop whitespace from both ends. -/
def pyStrip (s : String) : String :=
  String.mk (((s.toList.dropWhile Char.isWhitespace).reverse.dropWhile
    Char.isWhitespace).reverse)

/-- List version of a startsWith check. -/
def listStartsWith : List Char → List Char → Bool
  | [], _ => true
  | _ :: _, [] => false
  | p :: ps, c :: cs => if p = c then listStartsWith ps cs else false

/-- Python str.startswith. -/
def pyStartsWith (s pat : String) : Bool :=
  listStartsWith pat.toList s.toList

/-- True when the call result is a transport exception. -/
def isExn (r : CallResult) : Bool :=
  match r with
  | CallResult.exn => true
  | CallResult.status _ => false

/-- True when the call result is HTTP status 200. -/
def is200 (r : CallResult) : Bool :=
  match r with
  | CallResult.status c => c == 200
  | CallResult.exn => false

/-- Folder-creation success statuses accepted by _create_folder. -/
def createOk (r : CallResult) : Bool :=
  match r with
  | CallResult.status c => c == 200 || c == 201
  | CallResult.exn => false

/-- Binary-transfer success statuses accepted by _upload_binary. -/
def putOk (r : CallResult) : Bool :=
  match r with
  | CallResult.status c => c == 200 || c == 201 || c == 204
  | CallResult.exn => false

/-- Finalize success statuses accepted by _complete_upload. -/
def completeOk (r : CallResult) : Bool :=
  match r with
  | CallResult.status c => c == 200 || c == 201
  | CallResult.exn => false

/-- AEMUploader._get_destination_path: append year/month to the
destination root when date partitioning is on. -/
def get_destination_path (u : Uploader) (d : Date) : String :=
  if u.put_into_date_folder then
    u.aem_destination ++ "/" ++ d.year ++ "/" ++ d.month
  else u.aem_destination

/-- AEMUploader._create_folder retry loop (aem_uploader.py, lines
36-80), fuelled by the number of attempts left.  One attempt: GET the
existence check; an exception retries (one call consumed); status 200
succeeds; otherwise POST the create; status 200/201 succeeds, anything
else (including an exception) retries; the last attempt returns
false instead of retrying. -/
def create_folder_go (env : Env) (p : String) : Nat → Nat → Bool × Nat × Trace
  | 0, k => (false, k, [])
  | n+1, k =>
    let e1 := (Call.getCheck p, env.resp k)
    if isExn (env.resp k) then
      if n = 0 then (false, k+1, [e1])
      else
        let r := create_folder_go env p n (k+1)
        (r.1, r.2.1, e1 :: r.2.2)
    else if is200 (env.resp k) then (true, k+1, [e1])
    else
      let e2 := (Call.postCreate p, env.resp (k+1))
      if createOk (env.resp (k+1)) then (true, k+2, [e1, e2])
      else if n = 0 then (false, k+2, [e1, e2])
      else
        let r := create_folder_go env p n (k+2)
        (r.1, r.2.1, e1 :: e2 :: r.2.2)

/-- AEMUploader._create_folder with its default max_retries = 3. -/
def create_folder (env : Env) (p : String) (k : Nat) : Bool × Nat × Trace :=
  create_folder_go env p 3 k

/-- Loop body of AEMUploader._ensure_folders_exist: walk the path
segments from the root, ensure each cumulative path, stop at the
first failure. -/
def ensure_go (env : Env) : List String → String → Nat → Bool × Nat × Trace
  | [], _, k => (true, k, [])
  | p :: rest, current, k =>
    if p = "" then ensure_go env rest current k
    else
      let cur2 := current ++ "/" ++ p
      let r := create_folder env cur2 k
      if r.1 then
        let r2 := ensure_go env rest cur2 r.2.1
        (r2.1, r2.2.1, r.2.2 ++ r2.2.2)
      else (false, r.2.1, r.2.2)

/-- AEMUploader._ensure_folders_exist (aem_uploader.py, lines 82-99):
a no-op returning true unless date partitioning is on. -/
def ensure_folders_exist (env : Env) (u : Uploader) (destination_path : String)
    (k : Nat) : Bool × Nat × Trace :=
  if u.put_into_date_folder = false then (true, k, [])
  else ensure_go env (pySplit destination_path '/') "" k

/-- AEMUploader._initiate_upload retry loop (aem_uploader.py, lines
154-188): POST to initiateUpload; status 200 returns the parsed JSON;
any other status or an exception retries, the last attempt returns
None. -/
def initiate_go (env : Env) (dest fileName : String) :
    Nat → Nat → Option UploadInfo × Nat × Trace
  | 0, k => (none, k, [])
  | n+1, k =>
    let e := (Call.postInitiate dest fileName, env.resp k)
    if is200 (env.resp k) then (some (env.info k), k+1, [e])
    else if n = 0 then (none, k+1, [e])
    else
      let r := initiate_go env dest fileName n (k+1)
      (r.1, r.2.1, e :: r.2.2)

/-- AEMUploader._initiate_upload with its default max_retries = 3. -/
def initiate_upload (env : Env) (dest fileName : String) (k : Nat) :
    Option UploadInfo × Nat × Trace :=
  initiate_go env dest fileName 3 k

/-- AEMUploader._upload_binary (aem_uploader.py, lines 190-211): one
PUT per signed URI in list order; any status outside 200/201/204 or a
transport exception aborts immediately with false, no retry. -/
def upload_binary (env : Env) : List String → Nat → Bool × Nat × Trace
  | [], k => (true, k, [])
  | uri :: rest, k =>
    let e := (Call.putBinary uri, env.resp k)
    if putOk (env.resp k) then
      let r := upload_binary env rest (k+1)
      (r.1, r.2.1, e :: r.2.2)
    else (false, k+1, [e])

/-- AEMUploader._complete_upload (aem_uploader.py, lines 213-247): a
single POST to the completion endpoint, success on 200/201, an
exception yields false; no retry. -/
def complete_upload (env : Env) (info : UploadInfo) (k : Nat) : Bool × Nat × Trace :=
  (completeOk (env.resp k), k+1, [(Call.postComplete info.completeURI, env.resp k)])

/-- AEMUploader.upload (aem_uploader.py, lines 120-152): immediate
true when uploads are disabled; otherwise destination computation,
folder ensuring, then the three-step protocol, failing fast at the
first failing stage.  All exceptions below are already converted to
boolean or Option results, mirroring the try/except boundary. -/
def upload (env : Env) (u : Uploader) (d : Date) (fileName : String) (k : Nat) :
    Bool × Nat × Trace :=
  if u.aem_enabled = false then (true, k, [])
  else
    let dest := get_destination_path u d
    match ensure_folders_exist env u dest k with
    | (false, k1, t1) => (false, k1, t1)
    | (true, k1, t1) =>
      match initiate_upload env dest fileName k1 with
      | (none, k2, t2) => (false, k2, t1 ++ t2)
      | (some info, k2, t2) =>
        match upload_binary env info.uploadURIs k2 with
        | (false, k3, t3) => (false, k3, t1 ++ t2 ++ t3)
        | (true, k3, t3) =>
          match complete_upload env info k3 with
          | (b4, k4, t4) => (b4, k4, t1 ++ t2 ++ t3 ++ t4)

/-- ImageProcessor.process_image upload hook (image_processor.py,
lines 168-173): when uploads are enabled and a target folder is
given, the uploader's destination root is overwritten with it before
upload() runs; without a target folder the uploader is untouched.
The image-rendering work is external to this spec and omitted; the
returned uploader reflects the shared object after the call, the
Option Bool is the upload outcome (none when uploads are skipped). -/
def process_image (env : Env) (u : Uploader) (target_folder : Option String)
    (d : Date) (fileName : String) (k : Nat) :
    Uploader × Option Bool × Nat × Trace :=
  if u.aem_enabled then
    let u2 := match target_folder with
      | some tf => { u with aem_destination := tf }
      | none => u
    let r := upload env u2 d fileName k
    (u2, some r.1, r.2.1, r.2.2)
  else (u, none, k, [])

/-- One row of the customer structure CSV: folder and asset_count as
raw strings. -/
structure Entry where
  folder : String
  asset_count : String
deriving DecidableEq

/-- One queued task (folder_path, asset_count, source_image), as put
on the queue in customer_structure.py line 143. -/
structure Task where
  folder : String
  count : Int
  source : String
deriving DecidableEq

/-- Value of a list of decimal digits. -/
def digitsVal (cs : List Char) : Nat :=
  cs.foldl (fun a c => a * 10 + (c.toNat - 48)) 0

/-- Python int() applied to a stripped string: optional sign followed
by a non-empty run of decimal digits, leading/trailing whitespace
ignored; anything else raises ValueError, modelled as none.  (Python
additionally allows underscore digit grouping, which no input of this
system uses.) -/
def parsePyInt (s : String) : Option Int :=
  let cs := (pyStrip s).toList
  match cs with
  | [] => none
  | c :: rest =>
    if c = '+' then
      if rest ≠ [] ∧ rest.all Char.isDigit then some (Int.ofNat (digitsVal rest))
      else none
    else if c = '-' then
      if rest ≠ [] ∧ rest.all Char.isDigit then some (-(Int.ofNat (digitsVal rest)))
      else none
    else
      if (c :: rest).all Char.isDigit then some (Int.ofNat (digitsVal (c :: rest)))
      else none

/-- Path normalisation at the top of
CustomerStructureReplicator.create_folder_structure: ensure the
/content/dam root. -/
def normDamPath (folder_path : String) : String :=
  if pyStartsWith folder_path "/content/dam" then folder_path
  else "/content/dam" ++ folder_path

/-- Loop body of CustomerStructureReplicator.create_folder_structure
(customer_structure.py, lines 52-66): walk the segments below
/content/dam, skip a segment whose cumulative path is already in the
created-folders set (no network call for it), otherwise create it via
_create_folder; the first failure returns false without attempting
any deeper segment; successes are added to the set. -/
def cfs_go (env : Env) : List String → String → List String → Nat →
    Bool × List String × Nat × Trace
  | [], _, created, k => (true, created, k, [])
  | p :: rest, current, created, k =>
    if p = "" then cfs_go env rest current created k
    else
      let cur2 := current ++ "/" ++ p
      if cur2 ∈ created then cfs_go env rest cur2 created k
      else
        let r := create_folder env cur2 k
        if r.1 then
          let r2 := cfs_go env rest cur2 (cur2 :: created) r.2.1
          (r2.1, r2.2.1, r2.2.2.1, r.2.2 ++ r2.2.2.2)
        else (false, created, r.2.1, r.2.2)

/-- CustomerStructureReplicator.create_folder_structure
(customer_structure.py, lines 40-71): normalise under /content/dam,
split on '/', drop the empty head plus the content and dam segments
(they are assumed to exist), then run the creation loop. -/
def create_folder_structure (env : Env) (created : List String)
    (folder_path : String) (k : Nat) : Bool × List String × Nat × Trace :=
  cfs_go env ((pySplit (normDamPath folder_path) '/').drop 3) "/content/dam" created k

/-- Phase-1 handling of one structure entry (customer_structure.py,
lines 106-121): a non-numeric or zero asset count skips the entry
without any call; otherwise the folder structure is created, a
failure being logged and the run continuing either way. -/
def phase1_entry (env : Env) (e : Entry) (created : List String) (k : Nat) :
    List String × Nat × Trace :=
  match parsePyInt e.asset_count with
  | none => (created, k, [])
  | some n =>
    if n = 0 then (created, k, [])
    else
      let r := create_folder_structure env created (pyStrip e.folder) k
      (r.2.1, r.2.2.1, r.2.2.2)

/-- Phase 1 of replicate_structure: sequential folder creation over
all entries, threading the created-folders set. -/
def phase1 (env : Env) : List Entry → List String → Nat → List String × Nat × Trace
  | [], created, k => (created, k, [])
  | e :: rest, created, k =>
    let r := phase1_entry env e created k
    let r2 := phase1 env rest r.1 r.2.1
    (r2.1, r2.2.1, r.2.2 ++ r2.2.2)

/-- Task creation for one entry (customer_structure.py, lines
141-144): m tasks, each picking a source image with random.choice,
modelled by an oracle of random indices consumed in order. -/
def make_tasks (rand : Nat → Nat) (sources : List String) (folder : String)
    (cnt : Int) : Nat → Nat → List Task × Nat
  | 0, r => ([], r)
  | m+1, r =>
    let src := sources.getD (rand r % sources.length) ""
    let rest := make_tasks rand sources folder cnt m (r+1)
    (Task.mk folder cnt src :: rest.1, rest.2)

/-- Phase-2 handling of one structure entry (customer_structure.py,
lines 131-144): skip non-numeric and zero counts, otherwise enqueue
asset_count tasks (a negative count enqueues none, as range does). -/
def entry_tasks (rand : Nat → Nat) (sources : List String) (e : Entry) (r : Nat) :
    List Task × Nat :=
  match parsePyInt e.asset_count with
  | none => ([], r)
  | some n =>
    if n = 0 then ([], r)
    else make_tasks rand sources (pyStrip e.folder) n n.toNat r

/-- Phase 2 of replicate_structure: build the full task queue. -/
def phase2 (rand : Nat → Nat) (sources : List String) : List Entry → Nat →
    List Task × Nat
  | [], r => ([], r)
  | e :: rest, r =>
    let a := entry_tasks rand sources e r
    let b := phase2 rand sources rest a.2
    (a.1 ++ b.1, b.2)

/-- Observable outcome of the try-block of replicate_structure:
phase-1 created set and trace, and (unless the source pool was found
empty, which ends the run early) the queued tasks together with the
launched worker count min(requested, total tasks). -/
structure ReplOut where
  phase1_created : List String
  phase1_trace : Trace
  tasks : Option (List Task × Nat)

/-- Body of the try-block of replicate_structure
(customer_structure.py, lines 104-157): phase-1 folder creation, then
the source-pool check (empty pool logs an error and returns early),
then phase-2 task building and the worker-count clamp.  Phase 3 (the
concurrent pool run) is modelled separately as a transition system. -/
def replicate_phases (env : Env) (rand : Nat → Nat) (entries : List Entry)
    (sources : List String) (requested : Nat) (u : Uploader) : Uploader × ReplOut :=
  let r1 := phase1 env entries [] 0
  if sources.isEmpty then (u, ⟨r1.1, r1.2.2, none⟩)
  else
    let r2 := phase2 rand sources entries 0
    (u, ⟨r1.1, r1.2.2, some (r2.1, min requested r2.1.length)⟩)

/-- Save/override/restore discipline of replicate_structure
(customer_structure.py, lines 100-161): the date-partitioning flag is
saved, forced to false, the body runs (returning the mutated uploader
and its outcome, an exceptional outcome being an Except.error value
of the instantiating type), and the finally-block restores the saved
flag on every exit path. -/
def replicate_core {β : Type} (u : Uploader) (body : Uploader → Uploader × β) :
    Uploader × β :=
  let original := u.put_into_date_folder
  let r := body { u with put_into_date_folder := false }
  ({ r.1 with put_into_date_folder := original }, r.2)

/-- CustomerStructureReplicator.replicate_structure
(customer_structure.py, lines 87-163): disabled or empty structure
returns before the flag override; otherwise the phases run under the
save/override/restore discipline. -/
def replicate_structure (env : Env) (rand : Nat → Nat) (enabled : Bool)
    (entries : List Entry) (sources : List String) (requested : Nat)
    (u : Uploader) : Uploader × Option ReplOut :=
  if enabled = false then (u, none)
  else if entries.isEmpty then (u, none)
  else
    let r := replicate_core u
      (fun u1 => replicate_phases env rand entries sources requested u1)
    (r.1, some r.2)

/-- Worker-count clamp (customer_structure.py, line 147). -/
def num_threads (requested total : Nat) : Nat := min requested total

/-- Status of one pool worker: idle (about to call get_nowait), busy
processing a dequeued task, or exited after observing the queue
empty. -/
inductive WStatus where
  | idle
  | busy (t : Task)
  | done
deriving DecidableEq

/-- Shared state of the worker pool: the task queue, the status of
each of the n workers, the lock-guarded processed counter, and the
log of handler invocations (worker, task), most recent first. -/
structure PoolState (n : Nat) where
  queue : List Task
  workers : Fin n → WStatus
  count : Nat
  log : List (Fin n × Task)

/-- Small-step semantics of CustomerStructureReplicator.worker
(customer_structure.py, lines 73-85) under an arbitrary scheduler:
an idle worker atomically dequeues the head task (get_nowait), an
idle worker observing the empty queue exits permanently, and a busy
worker finishes its task, logging the handler invocation and
incrementing the processed counter under the lock. -/
inductive PoolStep {n : Nat} : PoolState n → PoolState n → Prop where
  | dequeue (s : PoolState n) (i : Fin n) (t : Task) (rest : List Task)
      (hw : s.workers i = WStatus.idle) (hq : s.queue = t :: rest) :
      PoolStep s { queue := rest, workers := Function.update s.workers i (WStatus.busy t),
                   count := s.count, log := s.log }
  | exit (s : PoolState n) (i : Fin n)
      (hw : s.workers i = WStatus.idle) (hq : s.queue = []) :
      PoolStep s { s with workers := Function.update s.workers i WStatus.done }
  | process (s : PoolState n) (i : Fin n) (t : Task)
      (hw : s.workers i = WStatus.busy t) :
      PoolStep s { queue := s.queue, workers := Function.update s.workers i WStatus.idle,
                   count := s.count + 1, log := (i, t) :: s.log }

/-- Reachability under any interleaving of pool steps. -/
def Reaches {n : Nat} (s1 s2 : PoolState n) : Prop :=
  Relation.ReflTransGen PoolStep s1 s2

/-- Pool state right after the queue is filled and the workers are
launched (customer_structure.py, lines 129-153). -/
def initState (n : Nat) (tasks : List Task) : PoolState n :=
  { queue := tasks, workers := fun _ => WStatus.idle, count := 0, log := [] }

/-- Multiset contribution of one worker status: the task it holds. -/
def statusMS : WStatus → Multiset Task
  | WStatus.busy t => {t}
  | _ => 0

/-- Multiset of all tasks currently held by busy workers. -/
def busyMS {n : Nat} (w : Fin n → WStatus) : Multiset Task :=
  Finset.univ.sum (fun i => statusMS (w i))

/-- Pool invariant: the counter equals the number of logged handler
invocations, the queue, the in-flight tasks and the logged tasks
partition the initial task list, and once any worker has exited the
queue is (and stays) empty. -/
def PoolInv {n : Nat} (tasks : List Task) (s : PoolState n) : Prop :=
  s.count = s.log.length ∧
  (↑s.queue + busyMS s.workers + ↑(s.log.map Prod.snd) = (↑tasks : Multiset Task)) ∧
  ((∃ i, s.workers i = WStatus.done) → s.queue = [])

/-- Path targeted by a call. -/
def callPath : Call → String
  | Call.getCheck p => p
  | Call.postCreate p => p
  | Call.postInitiate p _ => p
  | Call.putBinary u => u
  | Call.postComplete u => u

/-- True for binary-transfer calls. -/
def isPut (c : Call) : Bool :=
  match c with
  | Call.putBinary _ => true
  | _ => false

/-- True for finalize calls. -/
def isComplete (c : Call) : Bool :=
  match c with
  | Call.postComplete _ => true
  | _ => false

/-- True for initiate calls. -/
def isInitiate (c : Call) : Bool :=
  match c with
  | Call.postInitiate _ _ => true
  | _ => false

/-- True for folder existence-check and creation calls. -/
def isFolderCall (c : Call) : Bool :=
  match c with
  | Call.getCheck _ => true
  | Call.postCreate _ => true
  | _ => false

/-- Number of existence-check calls in a trace: each _create_folder
attempt issues exactly one, so this counts attempts. -/
def countGet (t : Trace) : Nat :=
  (t.filter (fun e => match e.1 with | Call.getCheck _ => true | _ => false)).length

/-- Number of folder-creation POST calls in a trace. -/
def countCreate (t : Trace) : Nat :=
  (t.filter (fun e => match e.1 with | Call.postCreate _ => true | _ => false)).length

/-- Outcome of one _create_folder attempt beginning at call counter
k: the existence check succeeds, or the create call succeeds. -/
def attemptOk (env : Env) (k : Nat) : Bool :=
  if isExn (env.resp k) then false
  else if is200 (env.resp k) then true
  else createOk (env.resp (k+1))

/-- Number of calls one _create_folder attempt beginning at k
consumes: one for an existence check that raises or returns 200, two
otherwise. -/
def attemptCost (env : Env) (k : Nat) : Nat :=
  if isExn (env.resp k) then 1 else if is200 (env.resp k) then 1 else 2

/-- Trace of one _create_folder attempt on path p beginning at k. -/
def attemptTrace (env : Env) (p : String) (k : Nat) : Trace :=
  if isExn (env.resp k) then [(Call.getCheck p, env.resp k)]
  else if is200 (env.resp k) then [(Call.getCheck p, env.resp k)]
  else [(Call.getCheck p, env.resp k), (Call.postCreate p, env.resp (k+1))]

/-- Call counter at which the i-th _create_folder attempt starts,
when the whole run starts at k. -/
def attemptStart (env : Env) (k : Nat) : Nat → Nat
  | 0 => k
  | i+1 => attemptStart env k i + attemptCost env (attemptStart env k i)

/-- Index of the first PUT in a block of n consecutive PUTs starting
at call counter k whose response is not a success, if any. -/
def firstFail (env : Env) (k : Nat) : Nat → Option Nat
  | 0 => none
  | n+1 =>
    if putOk (env.resp k) then (firstFail env (k+1) n).map (fun j => j + 1)
    else some 0

/-- Cumulative folder paths visited by the folder-creation loop for
the given segments, starting below current. -/
def cumPaths (current : String) : List String → List String
  | [] => []
  | p :: rest =>
    if p = "" then cumPaths current rest
    else (current ++ "/" ++ p) :: cumPaths (current ++ "/" ++ p) rest

/-- Reference walk worded after the ensureFolderPath contract: visit
the cumulative ancestor paths in order, head first; a path already in
the created set is skipped with no network call; otherwise it is
ensured via _create_folder and added to the set on success; the
first path that cannot be ensured returns false at once, so no
deeper path is ever visited.  create_folder_structure is proved
equal to this walk over its cumPaths list. -/
def specWalk (env : Env) : List String → List String → Nat →
    Bool × List String × Nat × Trace
  | [], created, k => (true, created, k, [])
  | q :: qs, created, k =>
    if q ∈ created then specWalk env qs created k
    else
      let r := create_folder env q k
      if r.1 then
        let r2 := specWalk env qs (q :: created) r.2.1
        (r2.1, r2.2.1, r2.2.2.1, r.2.2 ++ r2.2.2.2)
      else (false, created, r.2.1, r.2.2)

/-- Placeholder initiate-response body for sample environments. -/
def infoDefault : UploadInfo := { uploadURIs := [], uploadToken := "", completeURI := "" }

/-- Sample environment: every call fails with status 404. -/
def env404 : Env := { resp := fun _ => CallResult.status 404, info := fun _ => infoDefault }

/-- Sample environment: existence checks miss (404), creations
succeed (201), alternating with the call pattern of the folder
loop. -/
def env201 : Env :=
  { resp := fun k => if k % 2 = 0 then CallResult.status 404 else CallResult.status 201,
    info := fun _ => infoDefault }

/-- Sample environment realising two failed _create_folder attempts
followed by a successful third one. -/
def envN2 : Env :=
  { resp := fun k =>
      if k = 0 then CallResult.status 404
      else if k = 1 then CallResult.status 500
      else if k = 2 then CallResult.exn
      else if k = 3 then CallResult.status 404
      else CallResult.status 201,
    info := fun _ => infoDefault }

/-- Sample environment where the second call (and only it) fails. -/
def envPut : Env :=
  { resp := fun k => if k = 1 then CallResult.status 500 else CallResult.status 200,
    info := fun _ => infoDefault }

/-- Sample enabled uploader configuration. -/
def u1 : Uploader :=
  { aem_enabled := true, aem_destination := "/content/dam/images",
    put_into_date_folder := false }

/-- Sample disabled uploader configuration. -/
def uDis : Uploader :=
  { aem_enabled := false, aem_destination := "/content/dam/images",
    put_into_date_folder := false }

/-- Sample capture date. -/
def d0 : Date := { year := "2024", month := "05" }

/-- Sample task. -/
def t0 : Task := { folder := "/content/dam/customers/acme", count := 1, source := "a.jpg" }

/-- Sample source-image pool. -/
def srcs4 : List String := ["a.jpg", "b.jpg", "c.jpg", "d.jpg"]

/-- Identity random oracle. -/
def randId : Nat → Nat := fun r => r

/-- Sample well-formed structure entry. -/
def acmeEntry : Entry := { folder := "/customers/acme", asset_count := "3" }

/-- Sample zero-count structure entry. -/
def betaEntry : Entry := { folder := "/customers/beta", asset_count := "0" }

/-- Sample malformed structure entry. -/
def badEntry : Entry := { folder := "/customers/gamma", asset_count := "abc" }

/-- Index of the single worker of the sample one-task pool run. -/
def w0 : Fin (num_threads 1 1) := ⟨0, by decide⟩

/-- Sample pool run, initial state: one task, one worker. -/
def poolS0 : PoolState (num_threads 1 1) := initState (num_threads 1 1) [t0]

/-- Sample pool run after the worker dequeues the task. -/
def poolS1 : PoolState (num_threads 1 1) :=
  { queue := [], workers := Function.update poolS0.workers w0 (WStatus.busy t0),
    count := 0, log := [] }

/-- Sample pool run after the worker processes the task. -/
def poolS2 : PoolState (num_threads 1 1) :=
  { queue := [], workers := Function.update poolS1.workers w0 WStatus.idle,
    count := 1, log := [(w0, t0)] }

/-- Sample pool run after the worker observes the empty queue and
exits. -/
def poolS3 : PoolState (num_threads 1 1) :=
  { poolS2 with workers := Function.update poolS2.workers w0 WStatus.done }

/-- C1: for every asset, capture time and tag list, if uploads are
globally disabled the upload() entry point returns true immediately,
issues no outbound call, and (being a total function into Bool)
propagates no exception. -/
theorem C1_upload_disabled_noop (env : Env) (u : Uploader) (d : Date)
    (fileName : String) (k : Nat) (h : u.aem_enabled = false) :
    upload env u d fileName k = (true, k, []) := by
  simp [upload, h]

/-- C1 witness: a concrete disabled configuration. -/
theorem C1_upload_disabled_noop_witness :
    uDis.aem_enabled = false ∧ upload env404 uDis d0 "f.jpg" 0 = (true, 0, []) :=
  ⟨rfl, C1_upload_disabled_noop env404 uDis d0 "f.jpg" 0 rfl⟩

/-- C2: the date-partitioning flag equals its pre-run value once the
replication core returns or propagates — for every body, normally
returning or exceptional (instantiate the result type with an Except
to model a raise installed after the override) — the body itself runs
on the uploader with the flag forced to false, and the concrete
replicate_structure restores the flag as well. -/
theorem C2_date_flag_restored {β : Type} (u : Uploader)
    (body : Uploader → Uploader × β) (env : Env) (rand : Nat → Nat)
    (enabled : Bool) (entries : List Entry) (sources : List String)
    (requested : Nat) :
    (replicate_core u body).1.put_into_date_folder = u.put_into_date_folder ∧
    (replicate_core u body).2 = (body { u with put_into_date_folder := false }).2 ∧
    ({ u with put_into_date_folder := false } : Uploader).put_into_date_folder = false ∧
    (replicate_structure env rand enabled entries sources requested
      u).1.put_into_date_folder = u.put_into_date_folder := by
  refine ⟨rfl, rfl, rfl, ?_⟩
  unfold replicate_structure
  by_cases he : enabled = false
  · simp [he]
  · by_cases hs : entries.isEmpty
    · simp [he, hs]
    · simp [he, hs]
      rfl

/-- C10: process_image with a target folder and uploads enabled
overwrites the shared uploader's destination root with the target
folder, preserving the other fields; a call without a target folder
leaves the uploader untouched (so the override is never restored),
and the destination root a later target-less upload resolves is the
most recently supplied target folder. -/
theorem C10_destination_override_sticky (env env2 : Env) (u : Uploader)
    (tf : String) (d d2 : Date) (nm nm2 : String) (k k2 : Nat)
    (h : u.aem_enabled = true) :
    (process_image env u (some tf) d nm k).1.aem_destination = tf ∧
    (process_image env u (some tf) d nm k).1.aem_enabled = true ∧
    (process_image env u (some tf) d nm k).1.put_into_date_folder
      = u.put_into_date_folder ∧
    (process_image env u none d nm k).1 = u ∧
    (process_image env2 (process_image env u (some tf) d nm k).1 none d2 nm2
      k2).1.aem_destination = tf ∧
    (u.put_into_date_folder = false →
      get_destination_path (process_image env u (some tf) d nm k).1 d2 = tf) := by
  have h1 : (process_image env u (some tf) d nm k).1
      = { u with aem_destination := tf } := by
    simp [process_image, h]
  refine ⟨by rw [h1], by rw [h1]; exact h, by rw [h1], ?_, ?_, ?_⟩
  · by_cases he : u.aem_enabled <;> simp [process_image, he]
  · rw [h1]; simp [process_image, h]
  · intro hf; rw [h1]; simp [get_destination_path, hf]

/-- C10 witness: a concrete enabled uploader and target folder. -/
theorem C10_destination_override_sticky_witness :
    u1.aem_enabled = true ∧
    (process_image env404 u1 (some "/content/dam/customers/acme") d0 "n.jpg"
      0).1.aem_destination = "/content/dam/customers/acme" :=
  ⟨rfl, (C10_destination_override_sticky env404 env404 u1
    "/content/dam/customers/acme" d0 d0 "n.jpg" "n.jpg" 0 0 rfl).1⟩

/-- C5: the binary-transfer step issues one PUT per signed URI in
list order; when no response fails it succeeds having issued them
all, and when the j-th response is the first failure it returns
false after exactly j+1 PUTs, never touching a later URI and never
retrying. -/
theorem C5_binary_transfer_per_uri (env : Env) (uris : List String) (k : Nat) :
    (firstFail env k uris.length = none →
      (upload_binary env uris k).1 = true ∧
      (upload_binary env uris k).2.2.map Prod.fst = uris.map Call.putBinary) ∧
    (∀ j, firstFail env k uris.length = some j →
      (upload_binary env uris k).1 = false ∧
      (upload_binary env uris k).2.2.length = j + 1 ∧
      (upload_binary env uris k).2.2.map Prod.fst
        = (uris.take (j+1)).map Call.putBinary) := by
  induction uris generalizing k with
  | nil =>
    constructor
    · intro _; exact ⟨rfl, rfl⟩
    · intro j h; simp [firstFail] at h
  | cons uri rest ih =>
    simp only [upload_binary, List.length_cons, firstFail]
    by_cases hp : putOk (env.resp k)
    · simp only [hp, if_true]
      constructor
      · intro h
        have h2 : firstFail env (k+1) rest.length = none := by
          rcases hh : firstFail env (k+1) rest.length with _ | j2
          · rfl
          · rw [hh] at h; simp at h
        have h3 := (ih (k+1)).1 h2
        simp [h3.1, h3.2]
      · intro j h
        rcases hh : firstFail env (k+1) rest.length with _ | j2
        · rw [hh] at h; simp at h
        · rw [hh] at h; simp only [Option.map_some'] at h
          have h := Option.some.inj h
          have h3 := (ih (k+1)).2 j2 hh
          rw [← h]
          refine ⟨by simp [h3.1], by simp [h3.2.1], ?_⟩
          simp [List.take, h3.2.2]
    · simp only [hp, if_false]
      constructor
      · intro h; simp at h
      · intro j h
        have hj : j = 0 := by
          have := Option.some.inj h; omega
        subst hj
        simp [List.take]

/-- C5 witness: the 3-URI scenario where the second PUT fails —
exactly two PUT calls occur and the step fails. -/
theorem C5_binary_transfer_per_uri_witness :
    firstFail envPut 0 3 = some 1 ∧
    (upload_binary envPut ["u1", "u2", "u3"] 0).1 = false ∧
    (upload_binary envPut ["u1", "u2", "u3"] 0).2.2.length = 2 :=
  ⟨by decide,
   ((C5_binary_transfer_per_uri envPut ["u1", "u2", "u3"] 0).2 1 (by decide)).1,
   ((C5_binary_transfer_per_uri envPut ["u1", "u2", "u3"] 0).2 1 (by decide)).2.1⟩

/-- One successful _create_folder attempt ends the retry loop with
true, consuming the attempt's calls. -/
theorem create_folder_go_succ (env : Env) (p : String) (n k : Nat)
    (h : attemptOk env k = true) :
    create_folder_go env p (n+1) k
      = (true, k + attemptCost env k, attemptTrace env p k) := by
  unfold attemptOk at h
  by_cases h1 : isExn (env.resp k)
  · rw [if_pos h1] at h; exact absurd h (by simp)
  · rw [if_neg h1] at h
    by_cases h2 : is200 (env.resp k)
    · unfold create_folder_go attemptCost attemptTrace
      simp [h1, h2]
    · rw [if_neg h2] at h
      unfold create_folder_go attemptCost attemptTrace
      simp [h1, h2, h]

/-- One failed _create_folder attempt with retries left recurses on
the remaining fuel after consuming the attempt's calls. -/
theorem create_folder_go_fail (env : Env) (p : String) (n k : Nat)
    (h : attemptOk env k = false) :
    create_folder_go env p (n+2) k =
      ((create_folder_go env p (n+1) (k + attemptCost env k)).1,
       (create_folder_go env p (n+1) (k + attemptCost env k)).2.1,
       attemptTrace env p k
         ++ (create_folder_go env p (n+1) (k + attemptCost env k)).2.2) := by
  unfold attemptOk at h
  by_cases h1 : isExn (env.resp k)
  · conv_lhs => unfold create_folder_go
    simp [h1, attemptCost, attemptTrace]
  · rw [if_neg h1] at h
    by_cases h2 : is200 (env.resp k)
    · rw [if_pos h2] at h; exact absurd h (by simp)
    · rw [if_neg h2] at h
      conv_lhs => unfold create_folder_go
      simp [h1, h2, h, attemptCost, attemptTrace]

/-- A failed _create_folder attempt on the last unit of fuel returns
false. -/
theorem create_folder_go_last_fail (env : Env) (p : String) (k : Nat)
    (h : attemptOk env k = false) :
    create_folder_go env p 1 k = (false, k + attemptCost env k, attemptTrace env p k) := by
  unfold attemptOk at h
  by_cases h1 : isExn (env.resp k)
  · unfold create_folder_go
    simp [h1, attemptCost, attemptTrace]
  · rw [if_neg h1] at h
    by_cases h2 : is200 (env.resp k)
    · rw [if_pos h2] at h; exact absurd h (by simp)
    · rw [if_neg h2] at h
      unfold create_folder_go
      simp [h1, h2, h, attemptCost, attemptTrace]

/-- Existence-check call counts add over trace concatenation. -/
theorem countGet_append (a b : Trace) : countGet (a ++ b) = countGet a + countGet b := by
  simp [countGet, List.filter_append]

/-- Each attempt trace holds exactly one existence-check call. -/
theorem countGet_attemptTrace (env : Env) (p : String) (k : Nat) :
    countGet (attemptTrace env p k) = 1 := by
  unfold attemptTrace countGet
  by_cases h1 : isExn (env.resp k) <;> by_cases h2 : is200 (env.resp k) <;>
    simp [h1, h2, List.filter]

/-- C3: _create_folder with its default bounds (three attempts): a
200 existence check returns true immediately with zero create calls;
N failed attempts (transport error or non-success status) followed
by a successful one, N < 3, yield true after exactly N+1 attempts
(counted by existence-check calls, one per attempt); three failed
attempts yield false after exactly 3 attempts.  The function is total
into Bool: every modelled exception is absorbed by the loop. -/
theorem C3_create_folder_retry_bound (env : Env) (p : String) (k : Nat) :
    (is200 (env.resp k) = true →
      create_folder env p k = (true, k+1, [(Call.getCheck p, env.resp k)]) ∧
      countCreate (create_folder env p k).2.2 = 0) ∧
    (∀ N, N < 3 →
      (∀ i, i < N → attemptOk env (attemptStart env k i) = false) →
      attemptOk env (attemptStart env k N) = true →
      (create_folder env p k).1 = true ∧
      countGet (create_folder env p k).2.2 = N + 1) ∧
    ((∀ i, i < 3 → attemptOk env (attemptStart env k i) = false) →
      (create_folder env p k).1 = false ∧
      countGet (create_folder env p k).2.2 = 3) := by
  refine ⟨?_, ?_, ?_⟩
  · intro h200
    have hx : isExn (env.resp k) = false := by
      cases hr : env.resp k <;> simp_all [is200, isExn]
    constructor
    · unfold create_folder create_folder_go
      simp [hx, h200]
    · unfold create_folder create_folder_go
      simp [hx, h200, countCreate, List.filter]
  · intro N hN hfail hok
    interval_cases N
    · have e1 := create_folder_go_succ env p 2 k hok
      simp only [show (2:Nat)+1 = 3 from rfl] at e1
      unfold create_folder
      rw [e1]
      simp [countGet_attemptTrace]
    · have hf0 : attemptOk env k = false := hfail 0 (by omega)
      have e1 := create_folder_go_fail env p 1 k hf0
      simp only [show (1:Nat)+2 = 3 from rfl, show (1:Nat)+1 = 2 from rfl] at e1
      have hok1 : attemptOk env (k + attemptCost env k) = true := by
        simpa [attemptStart] using hok
      have e2 := create_folder_go_succ env p 1 (k + attemptCost env k) hok1
      simp only [show (1:Nat)+1 = 2 from rfl] at e2
      unfold create_folder
      rw [e1, e2]
      simp [countGet_append, countGet_attemptTrace]
    · have hf0 : attemptOk env k = false := hfail 0 (by omega)
      have hf1 : attemptOk env (k + attemptCost env k) = false := by
        simpa [attemptStart] using hfail 1 (by omega)
      have e1 := create_folder_go_fail env p 1 k hf0
      simp only [show (1:Nat)+2 = 3 from rfl, show (1:Nat)+1 = 2 from rfl] at e1
      have e2 := create_folder_go_fail env p 0 (k + attemptCost env k) hf1
      simp only [show (0:Nat)+2 = 2 from rfl, show (0:Nat)+1 = 1 from rfl] at e2
      have hok2 : attemptOk env (k + attemptCost env k
          + attemptCost env (k + attemptCost env k)) = true := by
        simpa [attemptStart] using hok
      have e3 := create_folder_go_succ env p 0 (k + attemptCost env k
          + attemptCost env (k + attemptCost env k)) hok2
      simp only [show (0:Nat)+1 = 1 from rfl] at e3
      unfold create_folder
      rw [e1, e2, e3]
      simp [countGet_append, countGet_attemptTrace]
  · intro hfail
    have hf0 : attemptOk env k = false := hfail 0 (by omega)
    have hf1 : attemptOk env (k + attemptCost env k) = false := by
      simpa [attemptStart] using hfail 1 (by omega)
    have hf2 : attemptOk env (k + attemptCost env k
        + attemptCost env (k + attemptCost env k)) = false := by
      simpa [attemptStart] using hfail 2 (by omega)
    have e1 := create_folder_go_fail env p 1 k hf0
    simp only [show (1:Nat)+2 = 3 from rfl, show (1:Nat)+1 = 2 from rfl] at e1
    have e2 := create_folder_go_fail env p 0 (k + attemptCost env k) hf1
    simp only [show (0:Nat)+2 = 2 from rfl, show (0:Nat)+1 = 1 from rfl] at e2
    have e3 := create_folder_go_last_fail env p (k + attemptCost env k
        + attemptCost env (k + attemptCost env k)) hf2
    unfold create_folder
    rw [e1, e2, e3]
    simp [countGet_append, countGet_attemptTrace]

/-- C3 witness: an immediate existence hit, two failures then a
success, and three straight failures, on concrete environments. -/
theorem C3_create_folder_retry_bound_witness :
    (create_folder envPut "/content/dam/x" 0).1 = true ∧
    (create_folder envN2 "/content/dam/x" 0).1 = true ∧
    countGet (create_folder envN2 "/content/dam/x" 0).2.2 = 3 ∧
    (create_folder env404 "/content/dam/x" 0).1 = false ∧
    countGet (create_folder env404 "/content/dam/x" 0).2.2 = 3 := by
  have hA := (C3_create_folder_retry_bound envPut "/content/dam/x" 0).1 (by decide)
  have hB := (C3_create_folder_retry_bound envN2 "/content/dam/x" 0).2.1 2
    (by decide) (fun i hi => by interval_cases i <;> decide) (by decide)
  have hC := (C3_create_folder_retry_bound env404 "/content/dam/x" 0).2.2
    (fun i hi => by interval_cases i <;> decide)
  exact ⟨by rw [hA.1], hB.1, hB.2, hC.1, hC.2⟩

/-- Every call in one attempt trace targets the attempt's path and is
a folder call. -/
theorem attemptTrace_paths (env : Env) (p : String) (k : Nat) :
    ∀ e ∈ attemptTrace env p k, callPath e.1 = p ∧ isFolderCall e.1 = true := by
  intro e he
  unfold attemptTrace at he
  by_cases h1 : isExn (env.resp k)
  · simp [h1] at he
    subst he; exact ⟨rfl, rfl⟩
  · by_cases h2 : is200 (env.resp k)
    · simp [h1, h2] at he
      subst he; exact ⟨rfl, rfl⟩
    · simp [h1, h2] at he
      rcases he with rfl | rfl
      · exact ⟨rfl, rfl⟩
      · exact ⟨rfl, rfl⟩

/-- Every call issued by the _create_folder loop targets its path and
is a folder call. -/
theorem create_folder_go_paths (env : Env) (p : String) (n : Nat) :
    ∀ k, ∀ e ∈ (create_folder_go env p n k).2.2,
      callPath e.1 = p ∧ isFolderCall e.1 = true := by
  induction n with
  | zero => intro k e he; simp [create_folder_go] at he
  | succ n ih =>
    intro k e he
    by_cases ha : attemptOk env k = true
    · rw [create_folder_go_succ env p n k ha] at he
      exact attemptTrace_paths env p k e he
    · have ha2 : attemptOk env k = false := by simpa using ha
      cases n with
      | zero =>
        rw [create_folder_go_last_fail env p k ha2] at he
        exact attemptTrace_paths env p k e he
      | succ m =>
        have e1 := create_folder_go_fail env p m k ha2
        have hfix : m + 1 + 1 = m + 2 := rfl
        rw [hfix] at he
        rw [e1] at he
        simp only [List.mem_append] at he
        rcases he with he | he
        · exact attemptTrace_paths env p k e he
        · exact ih _ e he

/-- Skip equation of the reference walk: an ancestor already in the
created set is passed over with no network call. -/
theorem specWalk_skip (env : Env) (q : String) (qs created : List String)
    (k : Nat) (hmem : q ∈ created) :
    specWalk env (q :: qs) created k = specWalk env qs created k := by
  simp [specWalk, hmem]

/-- Success equation of the reference walk: a new ancestor whose
_create_folder run succeeds is added to the set and the walk
continues with the deeper paths. -/
theorem specWalk_succ (env : Env) (q : String) (qs created : List String)
    (k : Nat) (hmem : q ∉ created) (hcf : (create_folder env q k).1 = true) :
    specWalk env (q :: qs) created k
      = ((specWalk env qs (q :: created) (create_folder env q k).2.1).1,
         (specWalk env qs (q :: created) (create_folder env q k).2.1).2.1,
         (specWalk env qs (q :: created) (create_folder env q k).2.1).2.2.1,
         (create_folder env q k).2.2
           ++ (specWalk env qs (q :: created) (create_folder env q k).2.1).2.2.2) := by
  simp [specWalk, hmem, hcf]

/-- Failure equation of the reference walk: a new ancestor whose
_create_folder run fails ends the walk at once with false; no deeper
path contributes any call. -/
theorem specWalk_fail (env : Env) (q : String) (qs created : List String)
    (k : Nat) (hmem : q ∉ created) (hcf : (create_folder env q k).1 = false) :
    specWalk env (q :: qs) created k
      = (false, created, (create_folder env q k).2.1,
         (create_folder env q k).2.2) := by
  simp [specWalk, hmem, hcf]

/-- The created set only grows along the reference walk. -/
theorem specWalk_created_mono (env : Env) (paths : List String) :
    ∀ created k x, x ∈ created → x ∈ (specWalk env paths created k).2.1 := by
  induction paths with
  | nil => intro created k x hx; exact hx
  | cons q qs ih =>
    intro created k x hx
    by_cases hmem : q ∈ created
    · rw [specWalk_skip env q qs created k hmem]
      exact ih created k x hx
    · by_cases hcf : (create_folder env q k).1 = true
      · rw [specWalk_succ env q qs created k hmem hcf]
        exact ih _ _ x (List.mem_cons_of_mem _ hx)
      · have hcf2 : (create_folder env q k).1 = false := by simpa using hcf
        rw [specWalk_fail env q qs created k hmem hcf2]
        exact hx

/-- Properties of the reference walk: no call targets an ancestor of
the created set; every call targets one of the walked paths; a
successful walk leaves every walked path in the returned created
set; and a failing walk fails at a definite first failing path — at
index j lies a path q outside the created set whose _create_folder
run failed, the trace ends with exactly that failed run, and every
earlier call targets a path strictly before index j, so no deeper
path is ever attempted. -/
theorem specWalk_props (env : Env) (paths : List String) :
    ∀ created k,
    (∀ e ∈ (specWalk env paths created k).2.2.2, callPath e.1 ∉ created) ∧
    (∀ e ∈ (specWalk env paths created k).2.2.2, callPath e.1 ∈ paths) ∧
    ((specWalk env paths created k).1 = true →
      ∀ q ∈ paths, q ∈ (specWalk env paths created k).2.1) ∧
    ((specWalk env paths created k).1 = false →
      ∃ j q kj tpre,
        paths.get? j = some q ∧
        q ∉ created ∧
        (create_folder env q kj).1 = false ∧
        (specWalk env paths created k).2.2.2
          = tpre ++ (create_folder env q kj).2.2 ∧
        ∀ e ∈ tpre, callPath e.1 ∈ paths.take j) := by
  induction paths with
  | nil =>
    intro created k
    refine ⟨?_, ?_, ?_, ?_⟩
    · intro e he; simp [specWalk] at he
    · intro e he; simp [specWalk] at he
    · intro _ q hq; simp at hq
    · intro hfalse; simp [specWalk] at hfalse
  | cons q qs ih =>
    intro created k
    by_cases hmem : q ∈ created
    · rw [specWalk_skip env q qs created k hmem]
      obtain ⟨ih1, ih2, ih3, ih4⟩ := ih created k
      refine ⟨ih1, ?_, ?_, ?_⟩
      · intro e he
        exact List.mem_cons_of_mem _ (ih2 e he)
      · intro htrue p hp
        rcases List.mem_cons.1 hp with rfl | hp2
        · exact specWalk_created_mono env qs created k p hmem
        · exact ih3 htrue p hp2
      · intro hfalse
        obtain ⟨j, q2, kj, tpre, hg, hnc, hcf, htr, hall⟩ := ih4 hfalse
        refine ⟨j+1, q2, kj, tpre, by simpa using hg, hnc, hcf, htr, ?_⟩
        intro e he
        rw [List.take_succ_cons]
        exact List.mem_cons_of_mem _ (hall e he)
    · by_cases hcf : (create_folder env q k).1 = true
      · rw [specWalk_succ env q qs created k hmem hcf]
        obtain ⟨ih1, ih2, ih3, ih4⟩ := ih (q :: created) (create_folder env q k).2.1
        dsimp only
        refine ⟨?_, ?_, ?_, ?_⟩
        · intro e he
          rcases List.mem_append.1 he with he | he
          · rw [(create_folder_go_paths env _ 3 k e he).1]
            exact hmem
          · intro hc
            exact ih1 e he (List.mem_cons_of_mem _ hc)
        · intro e he
          rcases List.mem_append.1 he with he | he
          · rw [(create_folder_go_paths env _ 3 k e he).1]
            exact List.mem_cons_self _ _
          · exact List.mem_cons_of_mem _ (ih2 e he)
        · intro htrue p hp
          rcases List.mem_cons.1 hp with rfl | hp2
          · exact specWalk_created_mono env qs _ _ p (List.mem_cons_self _ _)
          · exact ih3 htrue p hp2
        · intro hfalse
          obtain ⟨j, q2, kj, tpre, hg, hnc, hcf2, htr, hall⟩ := ih4 hfalse
          refine ⟨j+1, q2, kj, (create_folder env q k).2.2 ++ tpre,
            by simpa using hg, ?_, hcf2, ?_, ?_⟩
          · intro hc
            exact hnc (List.mem_cons_of_mem _ hc)
          · rw [htr, List.append_assoc]
          · intro e he
            rw [List.take_succ_cons]
            rcases List.mem_append.1 he with he | he
            · rw [(create_folder_go_paths env _ 3 k e he).1]
              exact List.mem_cons_self _ _
            · exact List.mem_cons_of_mem _ (hall e he)
      · have hcf2 : (create_folder env q k).1 = false := by simpa using hcf
        rw [specWalk_fail env q qs created k hmem hcf2]
        refine ⟨?_, ?_, ?_, ?_⟩
        · intro e he
          rw [(create_folder_go_paths env _ 3 k e he).1]
          exact hmem
        · intro e he
          rw [(create_folder_go_paths env _ 3 k e he).1]
          exact List.mem_cons_self _ _
        · intro htrue
          simp at htrue
        · intro _
          refine ⟨0, q, k, [], rfl, hmem, hcf2, rfl, ?_⟩
          intro e he
          simp at he

/-- The folder-creation loop is the reference walk over its
cumulative segment paths — it visits the ancestors in order, head
first. -/
theorem cfs_go_eq_specWalk (env : Env) (parts : List String) :
    ∀ current created k,
      cfs_go env parts current created k
        = specWalk env (cumPaths current parts) created k := by
  induction parts with
  | nil => intro current created k; rfl
  | cons p rest ih =>
    intro current created k
    by_cases hp : p = ""
    · rw [show cfs_go env (p :: rest) current created k
          = cfs_go env rest current created k from by simp [cfs_go, hp]]
      rw [show cumPaths current (p :: rest) = cumPaths current rest from by
        simp [cumPaths, hp]]
      exact ih current created k
    · have hcum : cumPaths current (p :: rest)
          = (current ++ "/" ++ p) :: cumPaths (current ++ "/" ++ p) rest := by
        simp [cumPaths, hp]
      rw [hcum]
      by_cases hmem : (current ++ "/" ++ p) ∈ created
      · rw [show cfs_go env (p :: rest) current created k
            = cfs_go env rest (current ++ "/" ++ p) created k from by
          simp [cfs_go, hp, hmem]]
        rw [specWalk_skip env _ _ created k hmem]
        exact ih _ created k
      · by_cases hcf : (create_folder env (current ++ "/" ++ p) k).1 = true
        · rw [show cfs_go env (p :: rest) current created k
              = ((cfs_go env rest (current ++ "/" ++ p)
                    ((current ++ "/" ++ p) :: created)
                    (create_folder env (current ++ "/" ++ p) k).2.1).1,
                 (cfs_go env rest (current ++ "/" ++ p)
                    ((current ++ "/" ++ p) :: created)
                    (create_folder env (current ++ "/" ++ p) k).2.1).2.1,
                 (cfs_go env rest (current ++ "/" ++ p)
                    ((current ++ "/" ++ p) :: created)
                    (create_folder env (current ++ "/" ++ p) k).2.1).2.2.1,
                 (create_folder env (current ++ "/" ++ p) k).2.2
                   ++ (cfs_go env rest (current ++ "/" ++ p)
                        ((current ++ "/" ++ p) :: created)
                        (create_folder env (current ++ "/" ++ p) k).2.1).2.2.2)
            from by simp [cfs_go, hp, hmem, hcf]]
          rw [specWalk_succ env _ _ created k hmem hcf]
          rw [ih]
        · have hcf2 : (create_folder env (current ++ "/" ++ p) k).1 = false := by
            simpa using hcf
          rw [show cfs_go env (p :: rest) current created k
              = (false, created,
                 (create_folder env (current ++ "/" ++ p) k).2.1,
                 (create_folder env (current ++ "/" ++ p) k).2.2) from by
            simp [cfs_go, hp, hmem, hcf2]]
          rw [specWalk_fail env _ _ created k hmem hcf2]

/-- C9: create_folder_structure splits the full path into segments
below the /content/dam root and equals the reference walk specWalk
over the cumulative ancestor paths, which visits them in order, head
first (conjunct 1); an ancestor already in the created-folders set
is skipped by an equation issuing no network call (conjunct 2); no
call of a run targets a path of the initial created set (conjunct 3)
and every call targets some cumulative ancestor (conjunct 4); a
successful run leaves every ancestor in the returned created set
(conjunct 5); and a failing run fails at a definite first failing
segment: at index j lies a path q outside the created set whose
_create_folder run failed, the trace ends with exactly that failed
run, and every earlier call targets an ancestor strictly before
index j — no deeper segment is ever attempted (conjunct 6). -/
theorem C9_ensure_folder_path (env : Env) (fp : String) (created : List String)
    (k : Nat) :
    create_folder_structure env created fp k
      = specWalk env (cumPaths "/content/dam"
          ((pySplit (normDamPath fp) '/').drop 3)) created k ∧
    (∀ q qs created2 k2, q ∈ created2 →
      specWalk env (q :: qs) created2 k2 = specWalk env qs created2 k2) ∧
    (∀ e ∈ (create_folder_structure env created fp k).2.2.2,
      callPath e.1 ∉ created) ∧
    (∀ e ∈ (create_folder_structure env created fp k).2.2.2,
      callPath e.1 ∈ cumPaths "/content/dam"
        ((pySplit (normDamPath fp) '/').drop 3)) ∧
    ((create_folder_structure env created fp k).1 = true →
      ∀ q ∈ cumPaths "/content/dam" ((pySplit (normDamPath fp) '/').drop 3),
        q ∈ (create_folder_structure env created fp k).2.1) ∧
    ((create_folder_structure env created fp k).1 = false →
      ∃ j q kj tpre,
        (cumPaths "/content/dam"
          ((pySplit (normDamPath fp) '/').drop 3)).get? j = some q ∧
        q ∉ created ∧
        (create_folder env q kj).1 = false ∧
        (create_folder_structure env created fp k).2.2.2
          = tpre ++ (create_folder env q kj).2.2 ∧
        ∀ e ∈ tpre, callPath e.1
          ∈ (cumPaths "/content/dam"
              ((pySplit (normDamPath fp) '/').drop 3)).take j) := by
  have heq : create_folder_structure env created fp k
      = specWalk env (cumPaths "/content/dam"
          ((pySplit (normDamPath fp) '/').drop 3)) created k :=
    cfs_go_eq_specWalk env ((pySplit (normDamPath fp) '/').drop 3)
      "/content/dam" created k
  obtain ⟨h1, h2, h3, h4⟩ := specWalk_props env
    (cumPaths "/content/dam" ((pySplit (normDamPath fp) '/').drop 3)) created k
  refine ⟨heq, ?_, ?_, ?_, ?_, ?_⟩
  · intro q qs created2 k2 hmem
    exact specWalk_skip env q qs created2 k2 hmem
  · rw [heq]
    exact h1
  · rw [heq]
    exact h2
  · rw [heq]
    exact h3
  · rw [heq]
    exact h4

/-- C9 witness: the refinement equality at a concrete input, a call
of a failing run hitting only a path outside the created set, and a
successful run leaving the walked ancestor in the returned created
set. -/
theorem C9_ensure_folder_path_witness :
    create_folder_structure env404 ["/content/dam/a"] "/a/b" 0
      = specWalk env404 (cumPaths "/content/dam"
          ((pySplit (normDamPath "/a/b") '/').drop 3)) ["/content/dam/a"] 0 ∧
    callPath (Call.getCheck "/content/dam/a/b") ∉ ["/content/dam/a"] ∧
    "/content/dam/a" ∈ (create_folder_structure env201 [] "/a" 0).2.1 :=
  ⟨(C9_ensure_folder_path env404 "/a/b" ["/content/dam/a"] 0).1,
   (C9_ensure_folder_path env404 "/a/b" ["/content/dam/a"] 0).2.2.1
      (Call.getCheck "/content/dam/a/b", CallResult.status 404) (by decide),
   (C9_ensure_folder_path env201 "/a" [] 0).2.2.2.2.1 (by decide)
      "/content/dam/a" (by decide)⟩

/-- Splitting an append at the first element satisfying P: if the
left part is P-free and the split element satisfies P, the split
point lies in the right part. -/
theorem append_split_first {α : Type} (P : α → Bool) (A : List α) :
    ∀ B pre post e, A ++ B = pre ++ e :: post → (∀ x ∈ A, P x = false) →
      P e = true → ∃ pre2, pre = A ++ pre2 ∧ B = pre2 ++ e :: post := by
  induction A with
  | nil =>
    intro B pre post e h _ _
    exact ⟨pre, rfl, h⟩
  | cons a A2 ih =>
    intro B pre post e h hA he
    cases pre with
    | nil =>
      simp only [List.cons_append, List.nil_append] at h
      injection h with h1 h2
      have hPa := hA a (List.mem_cons_self a A2)
      rw [h1, he] at hPa
      exact absurd hPa (by simp)
    | cons p pre3 =>
      simp only [List.cons_append] at h
      injection h with h1 h2
      obtain ⟨pre2, hp, hb⟩ := ih B pre3 post e h2
        (fun x hx => hA x (List.mem_cons_of_mem _ hx)) he
      refine ⟨pre2, ?_, hb⟩
      rw [hp, ← h1]
      rfl

/-- A singleton can only be split around its unique element. -/
theorem singleton_eq_append_cons {α : Type} (c e : α) (pre2 post : List α)
    (h : [c] = pre2 ++ e :: post) : pre2 = [] ∧ e = c ∧ post = [] := by
  cases pre2 with
  | nil =>
    simp only [List.nil_append] at h
    injection h with h1 h2
    exact ⟨rfl, h1.symm, h2.symm⟩
  | cons x xs =>
    simp only [List.cons_append] at h
    injection h with h1 h2
    exact absurd h2.symm (by simp)

/-- A result accepted by is200 is exactly status 200. -/
theorem is200_eq (r : CallResult) (h : is200 r = true) : r = CallResult.status 200 := by
  cases r with
  | status c =>
    simp only [is200, beq_iff_eq] at h
    rw [h]
  | exn => simp [is200] at h

/-- Folder calls are neither puts, completes nor initiates. -/
theorem isFolderCall_not (c : Call) (h : isFolderCall c = true) :
    isPut c = false ∧ isComplete c = false ∧ isInitiate c = false := by
  cases c <;> simp_all [isFolderCall, isPut, isComplete, isInitiate]

/-- Every call of the _ensure_folders_exist walk is a folder call. -/
theorem ensure_go_kinds (env : Env) (parts : List String) :
    ∀ current k, ∀ e ∈ (ensure_go env parts current k).2.2,
      isFolderCall e.1 = true := by
  induction parts with
  | nil => intro current k e he; simp [ensure_go] at he
  | cons p rest ih =>
    intro current k e he
    by_cases hp : p = ""
    · rw [show ensure_go env (p :: rest) current k = ensure_go env rest current k
        from by simp [ensure_go, hp]] at he
      exact ih current k e he
    · by_cases hr : (create_folder env (current ++ "/" ++ p) k).1 = true
      · rw [show ensure_go env (p :: rest) current k
            = ((ensure_go env rest (current ++ "/" ++ p)
                  (create_folder env (current ++ "/" ++ p) k).2.1).1,
               (ensure_go env rest (current ++ "/" ++ p)
                  (create_folder env (current ++ "/" ++ p) k).2.1).2.1,
               (create_folder env (current ++ "/" ++ p) k).2.2
                 ++ (ensure_go env rest (current ++ "/" ++ p)
                      (create_folder env (current ++ "/" ++ p) k).2.1).2.2)
          from by simp [ensure_go, hp, hr]] at he
        simp only [List.mem_append] at he
        rcases he with he | he
        · exact (create_folder_go_paths env _ 3 k e he).2
        · exact ih _ _ e he
      · have hr2 : (create_folder env (current ++ "/" ++ p) k).1 = false := by
          simpa using hr
        rw [show ensure_go env (p :: rest) current k
            = (false, (create_folder env (current ++ "/" ++ p) k).2.1,
               (create_folder env (current ++ "/" ++ p) k).2.2)
          from by simp [ensure_go, hp, hr2]] at he
        exact (create_folder_go_paths env _ 3 k e he).2

/-- Every call of _ensure_folders_exist is a folder call. -/
theorem ensure_folders_exist_kinds (env : Env) (u : Uploader) (dp : String)
    (k : Nat) : ∀ e ∈ (ensure_folders_exist env u dp k).2.2,
      isFolderCall e.1 = true := by
  intro e he
  unfold ensure_folders_exist at he
  by_cases hf : u.put_into_date_folder = false
  · simp [hf] at he
  · rw [if_neg hf] at he
    exact ensure_go_kinds env _ _ _ e he

/-- Every call of the _initiate_upload loop is an initiate call. -/
theorem initiate_go_kind (env : Env) (dest nm : String) (n : Nat) :
    ∀ k, ∀ e ∈ (initiate_go env dest nm n k).2.2,
      e.1 = Call.postInitiate dest nm := by
  induction n with
  | zero => intro k e he; simp [initiate_go] at he
  | succ n ih =>
    intro k e he
    unfold initiate_go at he
    by_cases h2 : is200 (env.resp k)
    · simp [h2] at he
      rw [he]
    · by_cases hn : n = 0
      · simp [h2, hn] at he
        rw [he]
      · simp only [h2, hn, if_false, Bool.false_eq_true, List.mem_cons] at he
        rcases he with he | he
        · rw [he]
        · exact ih _ e he

/-- A successful _initiate_upload run contains an initiate call that
received status 200. -/
theorem initiate_go_some (env : Env) (dest nm : String) (n : Nat) :
    ∀ k i, (initiate_go env dest nm n k).1 = some i →
      ∃ e ∈ (initiate_go env dest nm n k).2.2,
        isInitiate e.1 = true ∧ e.2 = CallResult.status 200 := by
  induction n with
  | zero => intro k i h; simp [initiate_go] at h
  | succ n ih =>
    intro k i h
    by_cases h2 : is200 (env.resp k)
    · refine ⟨(Call.postInitiate dest nm, env.resp k), ?_, rfl, is200_eq _ h2⟩
      unfold initiate_go
      simp [h2]
    · by_cases hn : n = 0
      · unfold initiate_go at h
        simp [h2, hn] at h
      · unfold initiate_go at h ⊢
        simp only [h2, hn, if_false, Bool.false_eq_true] at h ⊢
        obtain ⟨e, he, hei, hes⟩ := ih (k+1) i h
        exact ⟨e, List.mem_cons_of_mem _ he, hei, hes⟩

/-- Every call of _upload_binary is a PUT. -/
theorem upload_binary_kinds (env : Env) (uris : List String) :
    ∀ k, ∀ e ∈ (upload_binary env uris k).2.2, isPut e.1 = true := by
  induction uris with
  | nil => intro k e he; simp [upload_binary] at he
  | cons uri rest ih =>
    intro k e he
    unfold upload_binary at he
    by_cases hp : putOk (env.resp k)
    · simp only [hp, if_true, List.mem_cons] at he
      rcases he with he | he
      · rw [he]; rfl
      · exact ih _ e he
    · simp only [hp, if_false, Bool.false_eq_true, List.mem_cons,
        List.not_mem_nil, or_false] at he
      rw [he]; rfl

/-- In a successful _upload_binary run every PUT received a success
status. -/
theorem upload_binary_all_ok (env : Env) (uris : List String) :
    ∀ k, (upload_binary env uris k).1 = true →
      ∀ e ∈ (upload_binary env uris k).2.2, putOk e.2 = true := by
  induction uris with
  | nil => intro k _ e he; simp [upload_binary] at he
  | cons uri rest ih =>
    intro k hb e he
    unfold upload_binary at he hb
    by_cases hp : putOk (env.resp k)
    · simp only [hp, if_true, List.mem_cons] at he hb
      rcases he with he | he
      · rw [he]; exact hp
      · exact ih _ hb e he
    · simp [hp] at hb

/-- A PUT call is not a finalize call. -/
theorem isPut_not_complete (c : Call) (h : isPut c = true) : isComplete c = false := by
  cases c <;> simp_all [isPut, isComplete]

/-- Ordering facts that hold vacuously for traces free of PUTs and
finalize calls. -/
theorem ordering_no_pc (t : Trace)
    (hk : ∀ e ∈ t, isPut e.1 = false ∧ isComplete e.1 = false) :
    (∀ pre e post, t = pre ++ e :: post → isPut e.1 = true → False) ∧
    (∀ pre e post, t = pre ++ e :: post → isComplete e.1 = true → False) ∧
    ((∃ e ∈ t, isPut e.1 = true) → False) ∧
    ((∃ e ∈ t, isComplete e.1 = true) → False) := by
  have hmem : ∀ pre (e : Call × CallResult) post, t = pre ++ e :: post → e ∈ t := by
    intro pre e post ht
    rw [ht]
    exact List.mem_append_right _ (List.mem_cons_self _ _)
  refine ⟨?_, ?_, ?_, ?_⟩
  · intro pre e post ht hp
    have hx := (hk e (hmem pre e post ht)).1
    rw [hp] at hx
    exact absurd hx (by simp)
  · intro pre e post ht hc
    have hx := (hk e (hmem pre e post ht)).2
    rw [hc] at hx
    exact absurd hx (by simp)
  · rintro ⟨e, he, hp⟩
    have hx := (hk e he).1
    rw [hp] at hx
    exact absurd hx (by simp)
  · rintro ⟨e, he, hc⟩
    have hx := (hk e he).2
    rw [hc] at hx
    exact absurd hx (by simp)

/-- C4: the three protocol steps of upload() run strictly in order
and fail fast: a PUT only ever appears after an initiate call that
received status 200; a finalize call only ever appears after every
PUT, all of which succeeded; when no initiate succeeded there is no
PUT and no finalize call and upload() returns false; when some PUT
failed there is no finalize call and upload() returns false; and
when the finalize call failed upload() returns false. -/
theorem C4_three_step_ordering (env : Env) (u : Uploader) (d : Date) (nm : String)
    (k : Nat) (h : u.aem_enabled = true) :
    (∀ pre e post, (upload env u d nm k).2.2 = pre ++ e :: post →
      isPut e.1 = true →
      ∃ e2 ∈ pre, isInitiate e2.1 = true ∧ e2.2 = CallResult.status 200) ∧
    (∀ pre e post, (upload env u d nm k).2.2 = pre ++ e :: post →
      isComplete e.1 = true →
      ∀ e2 ∈ (upload env u d nm k).2.2, isPut e2.1 = true →
        e2 ∈ pre ∧ putOk e2.2 = true) ∧
    ((¬ ∃ e ∈ (upload env u d nm k).2.2,
        isInitiate e.1 = true ∧ e.2 = CallResult.status 200) →
      (∀ e ∈ (upload env u d nm k).2.2,
        isPut e.1 = false ∧ isComplete e.1 = false) ∧
      (upload env u d nm k).1 = false) ∧
    ((∃ e ∈ (upload env u d nm k).2.2, isPut e.1 = true ∧ putOk e.2 = false) →
      (∀ e ∈ (upload env u d nm k).2.2, isComplete e.1 = false) ∧
      (upload env u d nm k).1 = false) ∧
    ((∃ e ∈ (upload env u d nm k).2.2,
        isComplete e.1 = true ∧ completeOk e.2 = false) →
      (upload env u d nm k).1 = false) := by
  rcases hE : ensure_folders_exist env u (get_destination_path u d) k with ⟨bE, kE, tE⟩
  have hEk : ∀ e ∈ tE, isFolderCall e.1 = true := by
    have hx := ensure_folders_exist_kinds env u (get_destination_path u d) k
    rw [hE] at hx
    exact hx
  cases bE with
  | false =>
    have hup : upload env u d nm k = (false, kE, tE) := by
      simp [upload, h, hE]
    have htr : (upload env u d nm k).2.2 = tE := by rw [hup]
    have hk2 : ∀ e ∈ tE, isPut e.1 = false ∧ isComplete e.1 = false := by
      intro e he
      have hf := isFolderCall_not _ (hEk e he)
      exact ⟨hf.1, hf.2.1⟩
    obtain ⟨g1, g2, g3, g4⟩ := ordering_no_pc tE hk2
    refine ⟨?_, ?_, ?_, ?_, ?_⟩
    · intro pre e post ht hput
      exact (g1 pre e post (htr.symm.trans ht) hput).elim
    · intro pre e post ht hcomp
      exact (g2 pre e post (htr.symm.trans ht) hcomp).elim
    · intro _
      refine ⟨?_, by rw [hup]⟩
      rw [htr]
      exact hk2
    · intro hex
      rw [htr] at hex
      obtain ⟨e, he, hp, _⟩ := hex
      exact (g3 ⟨e, he, hp⟩).elim
    · intro hex
      rw [htr] at hex
      obtain ⟨e, he, hc, _⟩ := hex
      exact (g4 ⟨e, he, hc⟩).elim
  | true =>
    rcases hI : initiate_upload env (get_destination_path u d) nm kE with ⟨oI, kI, tI⟩
    have hI2 : initiate_go env (get_destination_path u d) nm 3 kE = (oI, kI, tI) := hI
    have hIk : ∀ e ∈ tI, e.1 = Call.postInitiate (get_destination_path u d) nm := by
      have hx := initiate_go_kind env (get_destination_path u d) nm 3 kE
      rw [hI2] at hx
      exact hx
    cases oI with
    | none =>
      have hup : upload env u d nm k = (false, kI, tE ++ tI) := by
        simp [upload, h, hE, hI]
      have htr : (upload env u d nm k).2.2 = tE ++ tI := by rw [hup]
      have hk2 : ∀ e ∈ tE ++ tI, isPut e.1 = false ∧ isComplete e.1 = false := by
        intro e he
        rcases List.mem_append.1 he with hx | hx
        · have hf := isFolderCall_not _ (hEk e hx)
          exact ⟨hf.1, hf.2.1⟩
        · exact ⟨by rw [hIk e hx]; rfl, by rw [hIk e hx]; rfl⟩
      obtain ⟨g1, g2, g3, g4⟩ := ordering_no_pc (tE ++ tI) hk2
      refine ⟨?_, ?_, ?_, ?_, ?_⟩
      · intro pre e post ht hput
        exact (g1 pre e post (htr.symm.trans ht) hput).elim
      · intro pre e post ht hcomp
        exact (g2 pre e post (htr.symm.trans ht) hcomp).elim
      · intro _
        refine ⟨?_, by rw [hup]⟩
        rw [htr]
        exact hk2
      · intro hex
        rw [htr] at hex
        obtain ⟨e, he, hp, _⟩ := hex
        exact (g3 ⟨e, he, hp⟩).elim
      · intro hex
        rw [htr] at hex
        obtain ⟨e, he, hc, _⟩ := hex
        exact (g4 ⟨e, he, hc⟩).elim
    | some info =>
      have hIsome : (initiate_go env (get_destination_path u d) nm 3 kE).1
          = some info := by rw [hI2]
      obtain ⟨eS, heS, heSi, heSs⟩ :=
        initiate_go_some env (get_destination_path u d) nm 3 kE info hIsome
      have heS2 : eS ∈ tI := by
        rw [hI2] at heS
        exact heS
      have hEIput : ∀ x ∈ tE ++ tI, isPut x.1 = false := by
        intro x hx
        rcases List.mem_append.1 hx with hx | hx
        · exact (isFolderCall_not _ (hEk x hx)).1
        · rw [hIk x hx]
          rfl
      have hEIcomp : ∀ x ∈ tE ++ tI, isComplete x.1 = false := by
        intro x hx
        rcases List.mem_append.1 hx with hx | hx
        · exact (isFolderCall_not _ (hEk x hx)).2.1
        · rw [hIk x hx]
          rfl
      rcases hB : upload_binary env info.uploadURIs kI with ⟨bB, kB, tB⟩
      have hBk : ∀ e ∈ tB, isPut e.1 = true := by
        have hx := upload_binary_kinds env info.uploadURIs kI
        rw [hB] at hx
        exact hx
      cases bB with
      | false =>
        have hup : upload env u d nm k = (false, kB, tE ++ tI ++ tB) := by
          simp [upload, h, hE, hI, hB]
        have htr : (upload env u d nm k).2.2 = tE ++ tI ++ tB := by rw [hup]
        have hcompall : ∀ x ∈ tE ++ tI ++ tB, isComplete x.1 = false := by
          intro x hx
          rcases List.mem_append.1 hx with hx | hx
          · exact hEIcomp x hx
          · exact isPut_not_complete _ (hBk x hx)
        refine ⟨?_, ?_, ?_, ?_, ?_⟩
        · intro pre e post ht hput
          have ht2 : (tE ++ tI) ++ tB = pre ++ e :: post := htr.symm.trans ht
          obtain ⟨pre2, hpre, _⟩ :=
            append_split_first (fun x => isPut x.1) (tE ++ tI) tB pre post e
              ht2 hEIput hput
          refine ⟨eS, ?_, heSi, heSs⟩
          rw [hpre]
          exact List.mem_append_left _ (List.mem_append_right _ heS2)
        · intro pre e post ht hcomp
          have he : e ∈ tE ++ tI ++ tB := by
            rw [htr.symm.trans ht]
            exact List.mem_append_right _ (List.mem_cons_self _ _)
          have hx := hcompall e he
          rw [hcomp] at hx
          exact absurd hx (by simp)
        · intro hni
          refine absurd ?_ hni
          refine ⟨eS, ?_, heSi, heSs⟩
          rw [htr]
          exact List.mem_append_left _ (List.mem_append_right _ heS2)
        · intro _
          refine ⟨?_, by rw [hup]⟩
          rw [htr]
          exact hcompall
        · intro hex
          rw [htr] at hex
          obtain ⟨e, he, hc, _⟩ := hex
          have hx := hcompall e he
          rw [hc] at hx
          exact absurd hx (by simp)
      | true =>
        have hBall : ∀ e ∈ tB, putOk e.2 = true := by
          have hx0 : (upload_binary env info.uploadURIs kI).1 = true := by rw [hB]
          have hx := upload_binary_all_ok env info.uploadURIs kI hx0
          rw [hB] at hx
          exact hx
        have hup : upload env u d nm k
            = (completeOk (env.resp kB), kB + 1,
               tE ++ tI ++ tB
                 ++ [(Call.postComplete info.completeURI, env.resp kB)]) := by
          simp [upload, h, hE, hI, hB, complete_upload]
        have htr : (upload env u d nm k).2.2
            = tE ++ tI ++ tB
              ++ [(Call.postComplete info.completeURI, env.resp kB)] := by rw [hup]
        have hA2comp : ∀ x ∈ tE ++ tI ++ tB, isComplete x.1 = false := by
          intro x hx
          rcases List.mem_append.1 hx with hx | hx
          · exact hEIcomp x hx
          · exact isPut_not_complete _ (hBk x hx)
        refine ⟨?_, ?_, ?_, ?_, ?_⟩
        · intro pre e post ht hput
          have ht2 : (tE ++ tI)
              ++ (tB ++ [(Call.postComplete info.completeURI, env.resp kB)])
              = pre ++ e :: post := by
            rw [← List.append_assoc]
            exact htr.symm.trans ht
          obtain ⟨pre2, hpre, _⟩ :=
            append_split_first (fun x => isPut x.1) (tE ++ tI) _ pre post e
              ht2 hEIput hput
          refine ⟨eS, ?_, heSi, heSs⟩
          rw [hpre]
          exact List.mem_append_left _ (List.mem_append_right _ heS2)
        · intro pre e post ht hcomp
          have ht2 : (tE ++ tI ++ tB)
              ++ [(Call.postComplete info.completeURI, env.resp kB)]
              = pre ++ e :: post := htr.symm.trans ht
          obtain ⟨pre2, hpre, hrest⟩ :=
            append_split_first (fun x => isComplete x.1) (tE ++ tI ++ tB) _
              pre post e ht2 hA2comp hcomp
          obtain ⟨hp2nil, _, _⟩ :=
            singleton_eq_append_cons _ e pre2 post hrest
          intro e2 he2 hput2
          rw [htr] at he2
          constructor
          · rw [hpre, hp2nil, List.append_nil]
            rcases List.mem_append.1 he2 with hx | hx
            · exact hx
            · simp only [List.mem_singleton] at hx
              rw [hx] at hput2
              simp [isPut] at hput2
          · rcases List.mem_append.1 he2 with hx | hx
            · rcases List.mem_append.1 hx with hy | hy
              · have hz := hEIput e2 hy
                rw [hput2] at hz
                exact absurd hz (by simp)
              · exact hBall e2 hy
            · simp only [List.mem_singleton] at hx
              rw [hx] at hput2
              simp [isPut] at hput2
        · intro hni
          refine absurd ?_ hni
          refine ⟨eS, ?_, heSi, heSs⟩
          rw [htr]
          exact List.mem_append_left _
            (List.mem_append_left _ (List.mem_append_right _ heS2))
        · intro hex
          rw [htr] at hex
          obtain ⟨e, he, hput2, hpo⟩ := hex
          rcases List.mem_append.1 he with hx | hx
          · rcases List.mem_append.1 hx with hy | hy
            · have hz := hEIput e hy
              rw [hput2] at hz
              exact absurd hz (by simp)
            · have hz := hBall e hy
              rw [hz] at hpo
              exact absurd hpo (by simp)
          · simp only [List.mem_singleton] at hx
            rw [hx] at hput2
            simp [isPut] at hput2
        · intro hex
          rw [htr] at hex
          obtain ⟨e, he, hcomp2, hco⟩ := hex
          have hec : e = (Call.postComplete info.completeURI, env.resp kB) := by
            rcases List.mem_append.1 he with hx | hx
            · have hz := hA2comp e hx
              rw [hcomp2] at hz
              exact absurd hz (by simp)
            · simpa using hx
          rw [hup]
          rw [hec] at hco
          exact hco

/-- C4 witness: with every remote call failing (status 404) against
an enabled uploader, no initiate call ever succeeds, and the theorem
yields that upload() returns false with no PUT and no finalize
call issued. -/
theorem C4_three_step_ordering_witness :
    u1.aem_enabled = true ∧ (upload env404 u1 d0 "f.jpg" 0).1 = false :=
  ⟨rfl, ((C4_three_step_ordering env404 u1 d0 "f.jpg" 0 rfl).2.2.1
    (by decide)).2⟩

/-- An in-bounds getD hits a list element. -/
theorem getD_mem_of_lt {α : Type} (l : List α) (d : α) :
    ∀ i, i < l.length → l.getD i d ∈ l := by
  induction l with
  | nil => intro i hi; simp at hi
  | cons a l ih =>
    intro i hi
    cases i with
    | zero => exact List.mem_cons_self a l
    | succ j =>
      exact List.mem_cons_of_mem _ (ih j (Nat.lt_of_succ_lt_succ hi))

/-- Task block built for one entry: exact length, fixed folder and
count, and source drawn from the pool. -/
theorem make_tasks_spec (rand : Nat → Nat) (sources : List String)
    (folder : String) (cnt : Int) (m : Nat) :
    ∀ r, (make_tasks rand sources folder cnt m r).1.length = m ∧
      ∀ t ∈ (make_tasks rand sources folder cnt m r).1,
        t.folder = folder ∧ t.count = cnt ∧ (sources ≠ [] → t.source ∈ sources) := by
  induction m with
  | zero => intro r; exact ⟨rfl, by simp [make_tasks]⟩
  | succ m ih =>
    intro r
    constructor
    · simp [make_tasks, (ih (r+1)).1]
    · intro t ht
      simp only [make_tasks, List.mem_cons] at ht
      rcases ht with ht | ht
      · refine ⟨by rw [ht], by rw [ht], ?_⟩
        intro hne
        rw [ht]
        exact getD_mem_of_lt sources "" _
          (Nat.mod_lt _ (List.length_pos.2 hne))
      · exact (ih (r+1)).2 t ht

/-- C7 (amended): an entry whose asset count parses to a positive n
enqueues exactly n tasks, each referencing the entry's stripped
folder and a source image drawn from the pool (via the random
oracle, with replacement); a zero-count entry enqueues no task and
performs no folder work of its own; a non-numeric entry enqueues no
task, performs no folder work, and the remaining entries are
processed exactly as if it were absent.  (The folder of a zero-count
entry may still be created as an ancestor of another entry's path,
which is what rules out the unamended claim.) -/
theorem C7_entry_task_counts (env : Env) (rand : Nat → Nat) (sources : List String)
    (e : Entry) (r k : Nat) (created : List String) :
    (∀ n : Int, parsePyInt e.asset_count = some n → 0 < n → sources ≠ [] →
      (entry_tasks rand sources e r).1.length = n.toNat ∧
      ∀ t ∈ (entry_tasks rand sources e r).1,
        t.folder = pyStrip e.folder ∧ t.count = n ∧ t.source ∈ sources) ∧
    (parsePyInt e.asset_count = some 0 →
      entry_tasks rand sources e r = ([], r) ∧
      phase1_entry env e created k = (created, k, [])) ∧
    (parsePyInt e.asset_count = none →
      entry_tasks rand sources e r = ([], r) ∧
      phase1_entry env e created k = (created, k, []) ∧
      (∀ rest, phase1 env (e :: rest) created k = phase1 env rest created k) ∧
      (∀ rest, phase2 rand sources (e :: rest) r = phase2 rand sources rest r)) := by
  refine ⟨?_, ?_, ?_⟩
  · intro n hp hpos hne
    have hne0 : ¬ (n = 0) := by omega
    have hred : entry_tasks rand sources e r
        = make_tasks rand sources (pyStrip e.folder) n n.toNat r := by
      unfold entry_tasks
      rw [hp]
      simp [hne0]
    rw [hred]
    obtain ⟨hlen, hall⟩ := make_tasks_spec rand sources (pyStrip e.folder) n n.toNat r
    exact ⟨hlen, fun t ht => ⟨(hall t ht).1, (hall t ht).2.1, (hall t ht).2.2 hne⟩⟩
  · intro hp
    constructor
    · unfold entry_tasks
      rw [hp]
      simp
    · unfold phase1_entry
      rw [hp]
      simp
  · intro hp
    have h1 : entry_tasks rand sources e r = ([], r) := by
      unfold entry_tasks
      rw [hp]
    have h2 : phase1_entry env e created k = (created, k, []) := by
      unfold phase1_entry
      rw [hp]
    refine ⟨h1, h2, ?_, ?_⟩
    · intro rest
      simp only [phase1, h2, List.nil_append]
    · intro rest
      simp only [phase2, h1, List.nil_append]

/-- C7 witness: the acme/beta scenario — a count of 3 enqueues three
tasks, a count of 0 enqueues none. -/
theorem C7_entry_task_counts_witness :
    parsePyInt "3" = some 3 ∧
    (entry_tasks randId srcs4 acmeEntry 0).1.length = 3 ∧
    parsePyInt "0" = some 0 ∧
    entry_tasks randId srcs4 betaEntry 0 = ([], 0) := by
  have hA := ((C7_entry_task_counts env404 randId srcs4 acmeEntry 0 0 []).1 3
    (by decide) (by decide) (by decide)).1
  have hB := ((C7_entry_task_counts env404 randId srcs4 betaEntry 0 0 []).2.1
    (by decide)).1
  exact ⟨by decide, hA, by decide, hB⟩

/-- C7 counterexample: entry ("/a", "0") has asset count 0, yet its
folder /content/dam/a is created (successful create call in the
phase-1 trace) as ancestor of the positive entry ("/a/b", "1"). -/
theorem C7_zero_count_folder_created_counterexample :
    parsePyInt (Entry.mk "/a" "0").asset_count = some 0 ∧
    (Call.postCreate "/content/dam/a", CallResult.status 201)
      ∈ (phase1 env201 [Entry.mk "/a/b" "1", Entry.mk "/a" "0"] [] 0).2.2 := by
  constructor
  · decide
  · decide

/-- C8 (amended): a malformed structure-file row is skipped and both
phases process the remaining entries exactly as if the row were
absent; an empty source pool ends the run right after phase 1 with
no tasks built (replicate_phases reports none), returning normally
rather than raising. -/
theorem C8_malformed_row_skipped (env : Env) (rand : Nat → Nat)
    (sources : List String) (xs ys : List Entry) (e : Entry)
    (created : List String) (k r requested : Nat) (entries : List Entry)
    (u : Uploader) (h : parsePyInt e.asset_count = none) :
    phase1 env (xs ++ e :: ys) created k = phase1 env (xs ++ ys) created k ∧
    phase2 rand sources (xs ++ e :: ys) r = phase2 rand sources (xs ++ ys) r ∧
    (replicate_phases env rand entries [] requested u).2.tasks = none := by
  have h2 : ∀ c2 k2, phase1_entry env e c2 k2 = (c2, k2, []) := by
    intro c2 k2
    unfold phase1_entry
    rw [h]
  have h3 : ∀ r2, entry_tasks rand sources e r2 = ([], r2) := by
    intro r2
    unfold entry_tasks
    rw [h]
  refine ⟨?_, ?_, rfl⟩
  · induction xs generalizing created k with
    | nil =>
      simp only [List.nil_append, phase1, h2, List.nil_append]
    | cons a xs2 ih =>
      simp only [List.cons_append, phase1, List.append_eq]
      rw [ih]
  · induction xs generalizing r with
    | nil =>
      simp only [List.nil_append, phase2, h3, List.nil_append]
    | cons a xs2 ih =>
      simp only [List.cons_append, phase2, List.append_eq]
      rw [ih]

/-- C8 witness: a concrete malformed row between well-formed
processing, and the empty-pool early return. -/
theorem C8_malformed_row_skipped_witness :
    parsePyInt "abc" = none ∧
    phase1 env404 [acmeEntry, badEntry] [] 0 = phase1 env404 [acmeEntry] [] 0 ∧
    (replicate_phases env404 randId [acmeEntry] [] 4 u1).2.tasks = none := by
  have h := C8_malformed_row_skipped env404 randId srcs4 [acmeEntry] [] badEntry
    [] 0 0 4 [acmeEntry] u1 (by decide)
  exact ⟨by decide, by simpa using h.1, h.2.2⟩

/-- C8 counterexample: with a well-formed entry requesting 2 assets
but an empty source pool, the run ends with no tasks built — the
remaining work is not processed, contradicting the unamended
claim. -/
theorem C8_missing_sources_abort_counterexample :
    parsePyInt "2" = some 2 ∧
    (replicate_phases env404 randId [Entry.mk "/a" "2"] [] 4 u1).2.tasks = none :=
  ⟨by decide, rfl⟩

/-- Updating one worker trades its old multiset contribution for the
new one. -/
theorem busyMS_update {n : Nat} (w : Fin n → WStatus) (i : Fin n) (v : WStatus) :
    busyMS (Function.update w i v) + statusMS (w i) = busyMS w + statusMS v := by
  unfold busyMS
  have hfun : ∀ j, statusMS (Function.update w i v j)
      = Function.update (fun j => statusMS (w j)) i (statusMS v) j := by
    intro j
    by_cases hj : j = i
    · subst hj
      simp [Function.update]
    · simp [Function.update, hj]
  rw [Finset.sum_congr rfl (fun j _ => hfun j)]
  rw [Finset.sum_update_of_mem (Finset.mem_univ i)]
  rw [← Finset.erase_eq]
  rw [add_assoc, Finset.sum_erase_add _ _ (Finset.mem_univ i), add_comm]

/-- The pool invariant holds initially. -/
theorem poolInv_init (tasks : List Task) (n : Nat) :
    PoolInv tasks (initState n tasks) := by
  refine ⟨rfl, ?_, ?_⟩
  · simp [initState, busyMS, statusMS]
  · rintro ⟨i, hi⟩
    exact WStatus.noConfusion hi

/-- Every pool step preserves the invariant. -/
theorem poolInv_step {n : Nat} (tasks : List Task) {s s2 : PoolState n}
    (hstep : PoolStep s s2) (hinv : PoolInv tasks s) : PoolInv tasks s2 := by
  obtain ⟨h1, h2, h3⟩ := hinv
  cases hstep with
  | dequeue i t rest hw hq =>
    refine ⟨h1, ?_, ?_⟩
    · dsimp only
      have hb := busyMS_update s.workers i (WStatus.busy t)
      rw [hw] at hb
      simp only [statusMS, add_zero] at hb
      rw [hq, ← Multiset.cons_coe, ← Multiset.singleton_add] at h2
      rw [hb, ← h2]
      abel
    · rintro ⟨j, hj⟩
      dsimp only at hj ⊢
      by_cases hji : j = i
      · subst hji
        rw [Function.update_same] at hj
        exact WStatus.noConfusion hj
      · rw [Function.update_noteq hji] at hj
        have hx := h3 ⟨j, hj⟩
        rw [hq] at hx
        exact absurd hx (List.cons_ne_nil t rest)
  | exit i hw hq =>
    refine ⟨h1, ?_, ?_⟩
    · dsimp only
      have hb := busyMS_update s.workers i WStatus.done
      rw [hw] at hb
      simp only [statusMS, add_zero] at hb
      rw [hb]
      exact h2
    · intro _
      exact hq
  | process i t hw =>
    refine ⟨?_, ?_, ?_⟩
    · simp [h1]
    · dsimp only
      have hb := busyMS_update s.workers i WStatus.idle
      rw [hw] at hb
      simp only [statusMS, add_zero] at hb
      rw [← hb] at h2
      rw [← h2]
      simp only [List.map_cons, ← Multiset.cons_coe, ← Multiset.singleton_add]
      abel
    · rintro ⟨j, hj⟩
      dsimp only at hj ⊢
      by_cases hji : j = i
      · subst hji
        rw [Function.update_same] at hj
        exact WStatus.noConfusion hj
      · rw [Function.update_noteq hji] at hj
        exact h3 ⟨j, hj⟩

/-- The invariant holds in every reachable pool state. -/
theorem poolInv_reach {n : Nat} (tasks : List Task) {s s2 : PoolState n}
    (h : Reaches s s2) (hinv : PoolInv tasks s) : PoolInv tasks s2 := by
  induction h with
  | refl => exact hinv
  | tail _ hstep ih => exact poolInv_step tasks hstep ih

/-- C6 (amended): for a run over T enqueued tasks with requested
worker count R ≥ 1, the pool launches exactly min(R, T) workers, and
in any reachable state in which every worker has exited, the
processed counter equals T, the handler was invoked exactly T times,
and the multiset of handled tasks is exactly the enqueued task list —
each task consumed by exactly one worker.  (R = 0 launches no worker
and processes nothing, which rules out the unamended claim.) -/
theorem C6_pool_exhaustive (R : Nat) (tasks : List Task) (hR : 1 ≤ R)
    (s : PoolState (num_threads R tasks.length))
    (hreach : Reaches (initState (num_threads R tasks.length) tasks) s)
    (hdone : ∀ i, s.workers i = WStatus.done) :
    num_threads R tasks.length = min R tasks.length ∧
    s.count = tasks.length ∧
    s.log.length = tasks.length ∧
    (↑(s.log.map Prod.snd) : Multiset Task) = ↑tasks := by
  obtain ⟨h1, h2, h3⟩ := poolInv_reach tasks hreach (poolInv_init tasks _)
  have hbusy : busyMS s.workers = 0 := by
    unfold busyMS
    apply Finset.sum_eq_zero
    intro i _
    rw [hdone i]
    rfl
  have hqueue : s.queue = [] := by
    cases tasks with
    | nil =>
      have hcard := congrArg Multiset.card h2
      simp only [Multiset.card_add, Multiset.coe_card, Multiset.coe_nil,
        Multiset.card_zero, List.length_nil] at hcard
      have hz : s.queue.length = 0 := by omega
      exact List.length_eq_zero.1 hz
    | cons t ts =>
      have hn : 0 < num_threads R (t :: ts).length := by
        simp only [num_threads, List.length_cons, Nat.lt_min]
        omega
      exact h3 ⟨⟨0, hn⟩, hdone ⟨0, hn⟩⟩
  have hlog : (↑(s.log.map Prod.snd) : Multiset Task) = ↑tasks := by
    rw [hqueue, hbusy] at h2
    simpa using h2
  have hcard : s.log.length = tasks.length := by
    have hc := congrArg Multiset.card hlog
    simpa [Multiset.coe_card, List.length_map] using hc
  exact ⟨rfl, h1.trans hcard, hcard, hlog⟩

/-- First step of the sample pool run: the worker dequeues. -/
theorem poolS0_step : PoolStep poolS0 poolS1 :=
  PoolStep.dequeue poolS0 w0 t0 [] rfl rfl

/-- Second step of the sample pool run: the worker processes the
task. -/
theorem poolS1_step : PoolStep poolS1 poolS2 :=
  PoolStep.process poolS1 w0 t0 (by simp [poolS1, Function.update])

/-- Third step of the sample pool run: the worker observes the empty
queue and exits. -/
theorem poolS2_step : PoolStep poolS2 poolS3 :=
  PoolStep.exit poolS2 w0 (by simp [poolS2, Function.update]) rfl

/-- The sample pool run reaches its final state. -/
theorem poolS3_reached : Reaches poolS0 poolS3 :=
  Relation.ReflTransGen.head poolS0_step
    (Relation.ReflTransGen.head poolS1_step
      (Relation.ReflTransGen.head poolS2_step Relation.ReflTransGen.refl))

/-- All workers of the sample pool run have exited at the end. -/
theorem poolS3_done : ∀ i, poolS3.workers i = WStatus.done := by
  intro i
  have hi : i = w0 := by
    apply Fin.ext
    have h2 : i.1 < 1 := i.isLt
    show i.1 = 0
    omega
  rw [hi]
  simp [poolS3, Function.update]

/-- C6 witness: the concrete one-task one-worker run ends with
counter 1 and one handler invocation. -/
theorem C6_pool_exhaustive_witness :
    poolS3.count = 1 ∧ poolS3.log.length = 1 := by
  have h := C6_pool_exhaustive 1 [t0] (le_refl 1) poolS3 poolS3_reached poolS3_done
  exact ⟨h.2.1, h.2.2.1⟩

/-- C6 counterexample: with requested worker count 0 and one enqueued
task, the initial state already has all (zero) workers done and a
processed counter of 0, not 1 — the unamended claim fails at R = 0. -/
theorem C6_zero_workers_counterexample :
    ¬ (∀ s : PoolState (num_threads 0 1),
        Reaches (initState (num_threads 0 1) [t0]) s →
        (∀ i, s.workers i = WStatus.done) → s.count = 1) := by
  intro hcl
  have h := hcl (initState (num_threads 0 1) [t0]) Relation.ReflTransGen.refl
    (fun i => absurd i.isLt (by simp [num_threads]))
  exact absurd h (by decide)

end AemAssetGen
